import Mathlib

/-!
Shallow embedding of `src/main.rs` of `matmul-utils`, a CPU cache-hierarchy
reporting utility, together with theorems settling the specification claims.

Modelling conventions:
* Rust `usize` is modelled as `Nat`; `str::parse::<usize>` rejects values
  at or above `2^64` (a 64-bit target is assumed), and multiplications that
  may exceed `usize::MAX` are reduced modulo `2^64` (release-mode wrapping
  semantics).
* External effects are oracles passed as parameters: `sysctl : String →
  Option String` returns the *trimmed* stdout of a successful `sysctl -n`
  invocation (`run_sysctl` trims; a non-zero exit still yields its captured
  stdout) and `none` for a spawn-level I/O error; `read_file : String →
  Option String` likewise returns the raw file contents or `none`;
  the Windows `wmic` invocation is one optional captured stdout.
* `io::Result` values are modelled as `Option` (`none` = `Err`).
* `HashMap<String, ProcessorLevel>` is modelled as an association list with
  replace-or-append insertion; iteration order of the real `HashMap` is
  unspecified, and every theorem below is insensitive to it.
* Rust's `{:.2}` float formatting is modelled exactly on rationals with
  round-half-to-even, which agrees with the `f64` computation whenever the
  byte count is below `2^53` (the conversion to `f64` is exact there and
  division by a power of two is exact).
-/

/-- Boolean test that `p` is a prefix of `l` (model of `str::starts_with`). -/
def listPrefix : List Char → List Char → Bool
  | [], _ => true
  | _ :: _, [] => false
  | a :: as, b :: bs => a == b && listPrefix as bs

/-- Boolean substring test (model of `str::contains`). -/
def listContains : List Char → List Char → Bool
  | [], needle => needle.isEmpty
  | h :: t, needle => listPrefix needle (h :: t) || listContains t needle

/-- Test whether a string contains `needle` as a substring. -/
def strContains (s needle : String) : Bool :=
  listContains s.data needle.data

/-- Whitespace predicate used by `trim` (ASCII forms suffice here). -/
def isWS (c : Char) : Bool :=
  c == ' ' || c == '\t' || c == '\n' || c == '\r'

/-- Model of `str::trim`: drop leading and trailing whitespace. -/
def strTrim (s : String) : String :=
  ⟨(((s.data.dropWhile isWS).reverse.dropWhile isWS).reverse : List Char)⟩

/-- Fuel-driven decimal printer (structural recursion so that the kernel
can evaluate it; the fuel is always sufficient below). -/
def natDecAux : Nat → Nat → List Char
  | 0, _ => []
  | fuel + 1, n =>
    if n < 10 then [Char.ofNat (48 + n)]
    else natDecAux fuel (n / 10) ++ [Char.ofNat (48 + n % 10)]

/-- Decimal digit characters of `n`, most significant first. -/
def natDecStr (n : Nat) : List Char :=
  natDecAux (n + 1) n

/-- Decimal rendering of `n` (model of `format!` with a `{}` hole for an
unsigned integer). -/
def natStr (n : Nat) : String :=
  ⟨natDecStr n⟩

/-- Value of a digit string under the usual left fold. -/
def digitsVal (cs : List Char) : Nat :=
  cs.foldl (fun a c => a * 10 + (c.toNat - 48)) 0

/-- Drop a single leading '+' sign (accepted by Rust's unsigned parser). -/
def stripPlus : List Char → List Char
  | '+' :: rest => rest
  | cs => cs

/-- Model of `str::parse::<usize>()`: an optional '+' sign followed by a
non-empty run of decimal digits whose value fits in 64 bits; anything else
is an error. -/
def rustParseUsize (s : String) : Option Nat :=
  let cs := stripPlus s.data
  if cs.isEmpty then none
  else if cs.all (fun c => c.isDigit) then
    if digitsVal cs < 18446744073709551616 then some (digitsVal cs) else none
  else none

/-- Test whether the last character of `s` is `c` (model of
`str::ends_with(char)`). -/
def lastCharIs (s : String) (c : Char) : Bool :=
  s.data.getLast? == some c

/-- Model of `parse_size_with_unit` (src/main.rs:418-433): take the leading
run of decimal digits, parse it (`unwrap_or(0)`), and scale by 1024/1024²/
1024³ when the string ends in 'K'/'M'/'G'. -/
def parse_size_with_unit (size_str : String) : Nat :=
  let numeric_part : List Char := size_str.data.takeWhile (fun c => c.isDigit)
  let base_size := (rustParseUsize ⟨numeric_part⟩).getD 0
  if lastCharIs size_str 'K' then base_size * 1024 % 18446744073709551616
  else if lastCharIs size_str 'M' then base_size * 1024 * 1024 % 18446744073709551616
  else if lastCharIs size_str 'G' then base_size * 1024 * 1024 * 1024 % 18446744073709551616
  else base_size

/-- Two-digit zero-padded rendering of `k < 100`. -/
def pad2 (k : Nat) : String :=
  if k < 10 then "0" ++ natStr k else natStr k

/-- Exact model of Rust's `format!("{:.2}", num as f64 / den as f64)` for
`num < 2^53` and `den` a power of two: the rational `num/den` rounded to two
decimal places with ties to even. -/
def fmt2 (num den : Nat) : String :=
  let scaled := num * 100
  let q := scaled / den
  let r := scaled % den
  let q2 :=
    if 2 * r < den then q
    else if den < 2 * r then q + 1
    else if q % 2 = 0 then q else q + 1
  natStr (q2 / 100) ++ "." ++ pad2 (q2 % 100)

/-- Model of `format_size` (src/main.rs:435-449). -/
def format_size (size : Nat) : String :=
  if size = 0 then "Not detected"
  else if size < 1024 then natStr size ++ " B"
  else if size < 1024 * 1024 then fmt2 size 1024 ++ " KB"
  else if size < 1024 * 1024 * 1024 then fmt2 size (1024 * 1024) ++ " MB"
  else fmt2 size (1024 * 1024 * 1024) ++ " GB"

/-- Model of struct `CacheInfo` (src/main.rs:8-13). Zero is the "not
detected" sentinel. -/
structure CacheInfo where
  instruction_size : Nat := 0
  data_size : Nat := 0
  unified_size : Nat := 0
deriving DecidableEq, Repr

/-- Model of `CacheInfo::format` (src/main.rs:16-38). -/
def CacheInfo.format (c : CacheInfo) : List String :=
  if 0 < c.unified_size then
    ["L1 Cache (Unified): " ++ format_size c.unified_size]
  else
    (if 0 < c.instruction_size then
      ["L1 Instruction Cache: " ++ format_size c.instruction_size] else [])
    ++ (if 0 < c.data_size then
      ["L1 Data Cache: " ++ format_size c.data_size] else [])

/-- Model of struct `ProcessorLevel` (src/main.rs:41-47). -/
structure ProcessorLevel where
  level_name : String := ""
  l1_cache : CacheInfo := {}
  l2_cache : Nat := 0
  l3_cache : Nat := 0
deriving DecidableEq, Repr

/-- Model of `ProcessorLevel::new` (src/main.rs:50-55). -/
def ProcessorLevel.new (name : String) : ProcessorLevel :=
  { level_name := name }

/-- Model of `ProcessorLevel::format` (src/main.rs:57-74): name header,
dashed underline, L1 lines, an unconditional L2 line, and an L3 line only
when nonzero. -/
def ProcessorLevel.format (pl : ProcessorLevel) : List String :=
  ["\n" ++ pl.level_name, ⟨List.replicate pl.level_name.data.length '-'⟩]
  ++ pl.l1_cache.format
  ++ ["L2 Cache: " ++ format_size pl.l2_cache]
  ++ (if 0 < pl.l3_cache then ["L3 Cache: " ++ format_size pl.l3_cache] else [])

/-- Association-list model of `HashMap::insert`: replace the value of an
existing key, otherwise append the binding. -/
def insertLevel (m : List (String × ProcessorLevel)) (k : String)
    (v : ProcessorLevel) : List (String × ProcessorLevel) :=
  if m.any (fun p => p.1 == k) then
    m.map (fun p => if p.1 == k then (k, v) else p)
  else m ++ [(k, v)]

/-- Association-list lookup (model of `HashMap` indexing). -/
def lookupLevel (m : List (String × ProcessorLevel)) (k : String) :
    Option ProcessorLevel :=
  (m.find? (fun p => p.1 == k)).map (fun p => p.2)

/-- Model of struct `ProcessorInfo` (src/main.rs:77-82). -/
structure ProcessorInfo where
  architecture : String := ""
  model_name : String := ""
  performance_levels : List (String × ProcessorLevel) := []
deriving DecidableEq, Repr

/-- Model of `detect_arm_type` (src/main.rs:103-118): only on macOS is the
CPU brand string consulted; `brand` is the captured stdout of
`sysctl -n machdep.cpu.brand_string` (`none` = spawn failure). -/
def detect_arm_type (isMacos : Bool) (brand : Option String) : String :=
  if isMacos then
    match brand with
    | some cpu_info => if strContains cpu_info "Apple" then "Apple Silicon" else "ARM"
    | none => "ARM"
  else "ARM"

/-- Model of the architecture-normalisation part of `detect_architecture`
(src/main.rs:92-101), as a pure function of the raw architecture string. -/
def detect_architecture (rawArch : String) (isMacos : Bool)
    (brand : Option String) : String :=
  if rawArch = "x86" ∨ rawArch = "x86_64" then "x86"
  else if rawArch = "aarch64" ∨ rawArch = "arm" ∨ rawArch = "arm64" then
    detect_arm_type isMacos brand
  else "Unknown: " ++ rawArch

/-- Name given to Apple-silicon performance tier `level`
(src/main.rs:203-207). -/
def apple_level_name (level : Nat) : String :=
  if level = 0 then "Performance Cores"
  else "Efficiency Cores (Level " ++ natStr level ++ ")"

/-- Per-field parse used on sysctl output: `parse::<usize>().unwrap_or(0)`. -/
def sysctlNat (v : String) : Nat :=
  (rustParseUsize v).getD 0

/-- Model of the body of the Apple-silicon per-tier loop
(src/main.rs:202-234): each `run_sysctl(...)?` propagates a spawn error,
hence the `Option` result. -/
def apple_level (sysctl : String → Option String) (level : Nat) :
    Option ProcessorLevel := do
  let levelName := apple_level_name level
  let isz ← sysctl ("hw.perflevel" ++ natStr level ++ ".l1icachesize")
  let dsz ← sysctl ("hw.perflevel" ++ natStr level ++ ".l1dcachesize")
  let l2s ← sysctl ("hw.perflevel" ++ natStr level ++ ".l2cachesize")
  let base : ProcessorLevel :=
    { level_name := levelName,
      l1_cache :=
        { instruction_size := sysctlNat isz, data_size := sysctlNat dsz,
          unified_size := 0 },
      l2_cache := sysctlNat l2s, l3_cache := 0 }
  if level = 0 then do
    let l3s ← sysctl "hw.l3cachesize"
    some { base with l3_cache := sysctlNat l3s }
  else some base

/-- The Apple-silicon loop over tier indices, threading the level map. -/
def apple_loop (sysctl : String → Option String) :
    List Nat → List (String × ProcessorLevel) →
    Option (List (String × ProcessorLevel))
  | [], acc => some acc
  | i :: rest, acc => do
      let pl ← apple_level sysctl i
      apple_loop sysctl rest (insertLevel acc (apple_level_name i) pl)

/-- Model of `collect_apple_silicon_cache_info` (src/main.rs:197-237). -/
def collect_apple_silicon_cache_info (sysctl : String → Option String)
    (pi : ProcessorInfo) : Option ProcessorInfo := do
  let pls ← sysctl "hw.nperflevels"
  let perf_levels := (rustParseUsize pls).getD 1
  let levels ← apple_loop sysctl (List.range perf_levels) pi.performance_levels
  some { pi with performance_levels := levels }

/-- Model of `collect_intel_mac_cache_info` (src/main.rs:239-274): every
sysctl failure is absorbed (`if let Ok` / `match`), so the result is total. -/
def collect_intel_mac_cache_info (sysctl : String → Option String)
    (pi : ProcessorInfo) : ProcessorInfo :=
  let l1 : CacheInfo :=
    match sysctl "hw.l1cachesize" with
    | some value =>
      if value ≠ "" then
        { instruction_size := 0, data_size := 0, unified_size := sysctlNat value }
      else
        { instruction_size := ((sysctl "hw.l1icachesize").map sysctlNat).getD 0,
          data_size := ((sysctl "hw.l1dcachesize").map sysctlNat).getD 0,
          unified_size := 0 }
    | none =>
        { instruction_size := ((sysctl "hw.l1icachesize").map sysctlNat).getD 0,
          data_size := ((sysctl "hw.l1dcachesize").map sysctlNat).getD 0,
          unified_size := 0 }
  let pl : ProcessorLevel :=
    { level_name := "Default", l1_cache := l1,
      l2_cache := ((sysctl "hw.l2cachesize").map sysctlNat).getD 0,
      l3_cache := ((sysctl "hw.l3cachesize").map sysctlNat).getD 0 }
  { pi with performance_levels := insertLevel pi.performance_levels "Default" pl }

/-- Sysfs directory for Linux cache index `i` (src/main.rs:282). -/
def linux_cache_dir (i : Nat) : String :=
  "/sys/devices/system/cpu/cpu0/cache/index" ++ natStr i

/-- Model of one iteration of the Linux cache scan (src/main.rs:281-317):
an unreadable `level`, `type` or `size` file skips the index (`continue`). -/
def linux_index_step (read_file : String → Option String)
    (pl : ProcessorLevel) (i : Nat) : ProcessorLevel :=
  match read_file (linux_cache_dir i ++ "/level") with
  | none => pl
  | some levelContent =>
    let level := (rustParseUsize (strTrim levelContent)).getD 0
    match read_file (linux_cache_dir i ++ "/type") with
    | none => pl
    | some typeContent =>
      let cache_type := strTrim typeContent
      match read_file (linux_cache_dir i ++ "/size") with
      | none => pl
      | some sizeContent =>
        let size := parse_size_with_unit (strTrim sizeContent)
        if level = 1 then
          if cache_type = "Data" then
            { pl with l1_cache := { pl.l1_cache with data_size := size } }
          else if cache_type = "Instruction" then
            { pl with l1_cache := { pl.l1_cache with instruction_size := size } }
          else if cache_type = "Unified" then
            { pl with l1_cache := { pl.l1_cache with unified_size := size } }
          else pl
        else if level = 2 then { pl with l2_cache := size }
        else if level = 3 then { pl with l3_cache := size }
        else pl

/-- Model of `collect_linux_cache_info` (src/main.rs:276-323): scan indices
0..9, then insert the single "Default" level. -/
def collect_linux_cache_info (read_file : String → Option String)
    (pi : ProcessorInfo) : ProcessorInfo :=
  let pl := (List.range 10).foldl (linux_index_step read_file)
    (ProcessorLevel.new "Default")
  { pi with performance_levels := insertLevel pi.performance_levels "Default" pl }

/-- Model of `str::lines`: split on newlines, drop a trailing empty segment,
and strip one trailing carriage return per line. -/
def rustLines (s : String) : List String :=
  let parts := s.splitOn "\n"
  let parts := if parts.getLast? = some "" then parts.dropLast else parts
  parts.map (fun l => if l.endsWith "\r" then l.dropRight 1 else l)

/-- Model of `str::trim_start_matches`: repeatedly remove a leading copy of
the (non-empty) pattern. -/
def trimStartMatchesL (pat : List Char) (s : List Char) : List Char :=
  if h : pat ≠ [] ∧ listPrefix pat s then
    trimStartMatchesL pat (s.drop pat.length)
  else s
termination_by s.length
decreasing_by
  rcases h with ⟨hne, hpre⟩
  have hlen : pat.length ≤ s.length := by
    clear hne
    induction pat generalizing s with
    | nil => simp
    | cons a as ih =>
      cases s with
      | nil => simp [listPrefix] at hpre
      | cons b bs =>
        simp only [listPrefix, Bool.and_eq_true] at hpre
        simpa using ih bs hpre.2
  have hpos : 0 < pat.length := List.length_pos.mpr hne
  simpa using Nat.sub_lt (Nat.lt_of_lt_of_le hpos hlen) hpos

/-- String version of `trim_start_matches`. -/
def trimStartMatches (s pat : String) : String :=
  ⟨trimStartMatchesL pat.data s.data⟩

/-- Model of the per-line parsing of `collect_windows_cache_info`
(src/main.rs:342-368). Windows reports kibibytes, hence the `* 1024`
(wrapping, see the header comment). -/
def windows_line_step (pl : ProcessorLevel) (line : String) : ProcessorLevel :=
  if listPrefix "L1CacheSize=".data line.data then
    match rustParseUsize (strTrim (trimStartMatches line "L1CacheSize=")) with
    | some size =>
      { pl with l1_cache :=
        { pl.l1_cache with unified_size := size * 1024 % 18446744073709551616 } }
    | none => pl
  else if listPrefix "L2CacheSize=".data line.data then
    match rustParseUsize (strTrim (trimStartMatches line "L2CacheSize=")) with
    | some size => { pl with l2_cache := size * 1024 % 18446744073709551616 }
    | none => pl
  else if listPrefix "L3CacheSize=".data line.data then
    match rustParseUsize (strTrim (trimStartMatches line "L3CacheSize=")) with
    | some size => { pl with l3_cache := size * 1024 % 18446744073709551616 }
    | none => pl
  else pl

/-- Model of `collect_windows_cache_info` (src/main.rs:325-375): a failed
`wmic` invocation is absorbed; the "Default" level is inserted either way. -/
def collect_windows_cache_info (wmic : Option String) (pi : ProcessorInfo) :
    ProcessorInfo :=
  let pl :=
    match wmic with
    | some output => (rustLines output).foldl windows_line_step
        (ProcessorLevel.new "Default")
    | none => ProcessorLevel.new "Default"
  { pi with performance_levels := insertLevel pi.performance_levels "Default" pl }

/-- External-effect oracles consumed by cache detection. -/
structure Oracles where
  sysctl : String → Option String
  read_file : String → Option String
  wmic : Option String

/-- Model of `collect_macos_cache_info` (src/main.rs:187-194). -/
def collect_macos_cache_info (o : Oracles) (pi : ProcessorInfo) :
    Option ProcessorInfo :=
  if pi.architecture = "Apple Silicon" then
    collect_apple_silicon_cache_info o.sysctl pi
  else some (collect_intel_mac_cache_info o.sysctl pi)

/-- Model of `collect_cache_info` (src/main.rs:165-185): the result pairs
the `io::Result` (`none` = `Err`) with the lines written to stderr. -/
def collect_cache_info (os : String) (pi : ProcessorInfo) (o : Oracles) :
    Option ProcessorInfo × List String :=
  if os = "macos" then (collect_macos_cache_info o pi, [])
  else if os = "linux" then (some (collect_linux_cache_info o.read_file pi), [])
  else if os = "windows" then (some (collect_windows_cache_info o.wmic pi), [])
  else (some pi, ["Unsupported operating system: " ++ os])

/-- Model of `ProcessorInfo::display` (src/main.rs:377-398), as the list of
pushed fragments (the source joins them with newlines). -/
def ProcessorInfo.display (pi : ProcessorInfo) (rawArch : String) : List String :=
  ["Architecture: " ++ pi.architecture ++ " - " ++ rawArch]
  ++ (if pi.model_name ≠ "" then ["CPU Model: " ++ pi.model_name] else [])
  ++ ["\nCache Information:", "=================="]
  ++ (pi.performance_levels.map (fun p => p.2.format)).flatten

/-- Model of `main` (src/main.rs:451-458): build the model, detect, render.
The process exits 0 exactly when the result is `some`. -/
def run_main (os rawArch : String) (isMacos : Bool) (brand : Option String)
    (modelName : String) (o : Oracles) : Option (List String) :=
  let pi : ProcessorInfo :=
    { architecture := detect_architecture rawArch isMacos brand,
      model_name := modelName, performance_levels := [] }
  match collect_cache_info os pi o with
  | (some pi2, _) => some (pi2.display rawArch)
  | (none, _) => none

/-- Value obtained from one successful sysctl query:
`parse::<usize>().unwrap_or(0)` of the captured text. -/
def apple_query_val (sysctl : String → Option String) (k : String) : Nat :=
  sysctlNat ((sysctl k).getD "")

/-- The level built by one iteration of the Apple-silicon loop when every
sysctl invocation succeeds. -/
def apple_level_pure (sysctl : String → Option String) (level : Nat) :
    ProcessorLevel :=
  { level_name := apple_level_name level,
    l1_cache :=
      { instruction_size :=
          apple_query_val sysctl ("hw.perflevel" ++ natStr level ++ ".l1icachesize"),
        data_size :=
          apple_query_val sysctl ("hw.perflevel" ++ natStr level ++ ".l1dcachesize"),
        unified_size := 0 },
    l2_cache :=
      apple_query_val sysctl ("hw.perflevel" ++ natStr level ++ ".l2cachesize"),
    l3_cache := if level = 0 then apple_query_val sysctl "hw.l3cachesize" else 0 }

/-- Tier count used by the Apple-silicon branch: the parsed
`hw.nperflevels`, defaulting to 1 when unparseable. -/
def appleTierCount (sysctl : String → Option String) : Nat :=
  (rustParseUsize ((sysctl "hw.nperflevels").getD "")).getD 1

/-- Synthetic Linux sysfs tree of claim C3: indices 0-2 carry
(level=1, type=Data, size="32K"), (level=1, type=Instruction, size="32K"),
(level=2, type=Unified, size="1M"); everything else is unreadable. -/
def linuxSynFs (p : String) : Option String :=
  if p = "/sys/devices/system/cpu/cpu0/cache/index0/level" then some "1"
  else if p = "/sys/devices/system/cpu/cpu0/cache/index0/type" then some "Data"
  else if p = "/sys/devices/system/cpu/cpu0/cache/index0/size" then some "32K"
  else if p = "/sys/devices/system/cpu/cpu0/cache/index1/level" then some "1"
  else if p = "/sys/devices/system/cpu/cpu0/cache/index1/type" then
    some "Instruction"
  else if p = "/sys/devices/system/cpu/cpu0/cache/index1/size" then some "32K"
  else if p = "/sys/devices/system/cpu/cpu0/cache/index2/level" then some "2"
  else if p = "/sys/devices/system/cpu/cpu0/cache/index2/type" then
    some "Unified"
  else if p = "/sys/devices/system/cpu/cpu0/cache/index2/size" then some "1M"
  else none

/-- Synthetic Linux sysfs tree exposing only index 9 (a gap before it):
(level=3, type=Unified, size="2M"). -/
def linuxGapFs (p : String) : Option String :=
  if p = "/sys/devices/system/cpu/cpu0/cache/index9/level" then some "3"
  else if p = "/sys/devices/system/cpu/cpu0/cache/index9/type" then
    some "Unified"
  else if p = "/sys/devices/system/cpu/cpu0/cache/index9/size" then some "2M"
  else none

/-- Two-tier Apple-silicon sysctl oracle of claim C5 (section 8 of the
spec): tier count 2; tier 0 L1i=131072, L1d=65536, L2=4194304, global
L3=8388608; tier 1 L1i=65536, L1d=32768, L2=2097152. Unknown parameters
answer the empty string (which parses to the 0 sentinel). -/
def appleEnvTwoTier (k : String) : Option String :=
  if k = "hw.nperflevels" then some "2"
  else if k = "hw.perflevel0.l1icachesize" then some "131072"
  else if k = "hw.perflevel0.l1dcachesize" then some "65536"
  else if k = "hw.perflevel0.l2cachesize" then some "4194304"
  else if k = "hw.l3cachesize" then some "8388608"
  else if k = "hw.perflevel1.l1icachesize" then some "65536"
  else if k = "hw.perflevel1.l1dcachesize" then some "32768"
  else if k = "hw.perflevel1.l2cachesize" then some "2097152"
  else some ""

/-- Apple-silicon sysctl oracle whose tier count is unparseable text. -/
def appleEnvBadCount (k : String) : Option String :=
  if k = "hw.nperflevels" then some "notanumber" else some ""

/-- Number of rendered lines that start with the given pattern. -/
def lineCount (pat : String) (lines : List String) : Nat :=
  lines.countP (fun l => listPrefix pat.data l.data)

/-! ## Helper lemmas -/

theorem strData_append (a b : String) : (a ++ b).data = a.data ++ b.data := by
  cases a; cases b; rfl

theorem digit_char_isDigit {d : Nat} (h : d < 10) :
    (Char.ofNat (48 + d)).isDigit = true := by
  interval_cases d <;> decide

theorem digit_char_val {d : Nat} (h : d < 10) :
    (Char.ofNat (48 + d)).toNat - 48 = d := by
  interval_cases d <;> decide

theorem natDecAux_irrel :
    ∀ {f1 : Nat} {f2 n : Nat}, n < f1 → n < f2 →
      natDecAux f1 n = natDecAux f2 n := by
  intro f1
  induction f1 with
  | zero => intro f2 n h1 _; omega
  | succ g ih =>
    intro f2 n h1 h2
    cases f2 with
    | zero => omega
    | succ h =>
      simp only [natDecAux]
      split


      · rfl
      · next hlt =>
        have hdiv : n / 10 < n := Nat.div_lt_self (by omega) (by omega)
        rw [show natDecAux g (n / 10) = natDecAux h (n / 10) from
          ih (by omega) (by omega)]

theorem natDecStr_unfold (n : Nat) :
    natDecStr n = if n < 10 then [Char.ofNat (48 + n)]
      else natDecStr (n / 10) ++ [Char.ofNat (48 + n % 10)] := by
  unfold natDecStr
  simp only [natDecAux]
  split
  · rfl
  · next hlt =>
    have hdiv : n / 10 < n := Nat.div_lt_self (by omega) (by omega)
    rw [show natDecAux n (n / 10) = natDecAux (n / 10 + 1) (n / 10) from
      natDecAux_irrel (by omega) (by omega)]
    simp only [natDecAux]

theorem natDecStr_ne_nil (n : Nat) : natDecStr n ≠ [] := by
  rw [natDecStr_unfold]
  split <;> simp

theorem natDecStr_all_digits (n : Nat) :
    ∀ c ∈ natDecStr n, c.isDigit = true := by
  induction n using Nat.strong_induction_on with
  | _ n ih =>
    rw [natDecStr_unfold]
    split
    · next h =>
      intro c hc
      simp only [List.mem_singleton] at hc
      subst hc
      exact digit_char_isDigit h
    · next h =>
      intro c hc
      rcases List.mem_append.1 hc with hc' | hc'
      · exact ih (n / 10) (Nat.div_lt_self (by omega) (by omega)) c hc'
      · simp only [List.mem_singleton] at hc'
        subst hc'
        exact digit_char_isDigit (Nat.mod_lt _ (by omega))

theorem digitsVal_append_digit (a : List Char) (c : Char) :
    digitsVal (a ++ [c]) = 10 * digitsVal a + (c.toNat - 48) := by
  simp [digitsVal, List.foldl_append]
  ring

theorem digitsVal_natDecStr (n : Nat) : digitsVal (natDecStr n) = n := by
  induction n using Nat.strong_induction_on with
  | _ n ih =>
    rw [natDecStr_unfold]
    split
    · next h =>
      simp [digitsVal, digit_char_val h]
    · next h =>
      rw [digitsVal_append_digit, ih (n / 10) (Nat.div_lt_self (by omega) (by omega)),
        digit_char_val (Nat.mod_lt _ (by omega))]
      omega

theorem natDecStr_inj {m n : Nat} (h : natDecStr m = natDecStr n) : m = n := by
  have := digitsVal_natDecStr m
  rw [h, digitsVal_natDecStr] at this
  omega

theorem natStr_inj {m n : Nat} (h : natStr m = natStr n) : m = n := by
  apply natDecStr_inj
  have := congrArg String.data h
  simpa [natStr] using this

theorem natDecStr_head_digit (n : Nat) :
    ∀ c, (natDecStr n).head? = some c → c.isDigit = true := by
  intro c hc
  have hm : c ∈ natDecStr n := by
    cases hl : natDecStr n with
    | nil => simp [hl] at hc
    | cons a t =>
      rw [hl] at hc
      simp only [List.head?_cons, Option.some.injEq] at hc
      subst hc
      simp [hl]
  exact natDecStr_all_digits n c hm

theorem stripPlus_of_not_plus {cs : List Char} (h : cs.head? ≠ some '+') :
    stripPlus cs = cs := by
  cases cs with
  | nil => rfl
  | cons a t =>
    simp only [List.head?_cons, ne_eq, Option.some.injEq] at h
    unfold stripPlus
    split
    · rename_i heq
      exact absurd (List.head_eq_of_cons_eq heq.symm).symm h
    · rfl

theorem takeWhile_append_all {p : Char → Bool} :
    ∀ (a b : List Char), (∀ c ∈ a, p c = true) →
      (a ++ b).takeWhile p = a ++ b.takeWhile p := by
  intro a
  induction a with
  | nil => intro b _; simp
  | cons x xs ih =>
    intro b h
    have hx : p x = true := h x (by simp)
    simp only [List.cons_append, List.takeWhile_cons, hx, if_true]
    rw [ih b (fun c hc => h c (by simp [hc]))]

theorem rustParseUsize_natDecStr {n : Nat} (h : n < 18446744073709551616) :
    rustParseUsize ⟨natDecStr n⟩ = some n := by
  have hd : ∀ c ∈ natDecStr n, c.isDigit = true := natDecStr_all_digits n
  have hne : natDecStr n ≠ [] := natDecStr_ne_nil n
  have hsp : stripPlus (natDecStr n) = natDecStr n := by
    apply stripPlus_of_not_plus
    intro hplus
    have := natDecStr_head_digit n '+' hplus
    simp at this
  unfold rustParseUsize
  simp only [hsp]
  rw [if_neg (by simpa using hne), if_pos (by simpa [List.all_eq_true] using hd),
    if_pos (by rwa [digitsVal_natDecStr]), digitsVal_natDecStr]

theorem takeWhile_head_not {p : Char → Bool} {xs : List Char}
    (h : xs.head?.all (fun c => !p c) = true) : xs.takeWhile p = [] := by
  cases xs with
  | nil => rfl
  | cons a t =>
    simp only [List.head?_cons, Option.all_some, Bool.not_eq_true'] at h
    simp [List.takeWhile_cons, h]

theorem natStr_lastCharIs_false {n : Nat} {c : Char} (hc : c.isDigit = false) :
    lastCharIs (natStr n) c = false := by
  unfold lastCharIs natStr
  cases hl : (natDecStr n).getLast? with
  | none => rfl
  | some a =>
    have ha : a ∈ natDecStr n := List.mem_of_mem_getLast? hl
    have had := natDecStr_all_digits n a ha
    have hne : a ≠ c := by
      intro h; rw [h] at had; rw [had] at hc; cases hc
    simp [hne]

theorem lastCharIs_append_char (s : String) (c : Char) (d : Char) :
    lastCharIs (s ++ ⟨[c]⟩) d = (c == d) := by
  unfold lastCharIs
  rw [strData_append]
  rw [List.getLast?_append]
  cases h : (c == d) with
  | true => simp [eq_of_beq h]
  | false =>
    have : c ≠ d := by
      intro he; rw [he] at h; simp at h
    simp [this]

/-- Components of `parse_size_with_unit` applied to the decimal string of
`n` followed by a non-digit-leading suffix. -/
theorem parse_size_natStr_sfx (n : Nat) (hn : n < 18446744073709551616)
    (sfx : String) (hs : sfx.data.head?.all (fun c => !c.isDigit) = true) :
    parse_size_with_unit (natStr n ++ sfx) =
      (if lastCharIs (natStr n ++ sfx) 'K' then n * 1024 % 18446744073709551616
      else if lastCharIs (natStr n ++ sfx) 'M' then
        n * 1024 * 1024 % 18446744073709551616
      else if lastCharIs (natStr n ++ sfx) 'G' then
        n * 1024 * 1024 * 1024 % 18446744073709551616
      else n) := by
  have hnum : (natStr n ++ sfx).data.takeWhile (fun c => c.isDigit) =
      natDecStr n := by
    rw [strData_append]
    have : (natStr n).data = natDecStr n := rfl
    rw [this]
    rw [takeWhile_append_all (natDecStr n) sfx.data (natDecStr_all_digits n)]
    rw [takeWhile_head_not hs]
    simp
  unfold parse_size_with_unit
  simp only [hnum, rustParseUsize_natDecStr hn, Option.getD_some]

theorem lastChar_append_K (s : String) :
    lastCharIs (s ++ "K") 'K' = true ∧ lastCharIs (s ++ "K") 'M' = false ∧
      lastCharIs (s ++ "K") 'G' = false := by
  unfold lastCharIs
  rw [strData_append]
  rw [show ("K" : String).data = ['K'] from rfl, List.getLast?_append]
  simp

theorem lastChar_append_M (s : String) :
    lastCharIs (s ++ "M") 'K' = false ∧ lastCharIs (s ++ "M") 'M' = true ∧
      lastCharIs (s ++ "M") 'G' = false := by
  unfold lastCharIs
  rw [strData_append]
  rw [show ("M" : String).data = ['M'] from rfl, List.getLast?_append]
  simp

theorem lastChar_append_G (s : String) :
    lastCharIs (s ++ "G") 'K' = false ∧ lastCharIs (s ++ "G") 'M' = false ∧
      lastCharIs (s ++ "G") 'G' = true := by
  unfold lastCharIs
  rw [strData_append]
  rw [show ("G" : String).data = ['G'] from rfl, List.getLast?_append]
  simp

theorem append_empty_str (s : String) : s ++ "" = s := by
  cases s
  show String.mk _ = _
  simp

/-- Claim C2, counterexample. The claim quantifies over every non-negative
integer `n`, but `str::parse::<usize>` fails for values at or above
`2^64 = 18446744073709551616`, so at `n = 2^64` with empty suffix the
function returns the `unwrap_or(0)` fallback `0`, not `n * 1`. -/
theorem claim_C2_counterexample :
    parse_size_with_unit (natStr 18446744073709551616 ++ "") = 0 ∧
      (0 : Nat) ≠ 18446744073709551616 * 1 := by
  constructor
  · decide
  · decide

/-- Claim C2, amended: for every `n < 2^64` and suffix `s` in
{"", "K", "M", "G"} whose scaled value `n * multiplier(s)` still fits in 64
bits, `parse_size_with_unit` applied to the decimal string of `n` followed
by `s` returns `n * multiplier(s)` (multiplier 1, 1024, 1024², 1024³); and
every input string whose first character is not a decimal digit (in
particular "K" and the empty string) yields 0. -/
theorem claim_C2 :
    (∀ n : Nat, n < 18446744073709551616 →
      parse_size_with_unit (natStr n ++ "") = n ∧
      (n * 1024 < 18446744073709551616 →
        parse_size_with_unit (natStr n ++ "K") = n * 1024) ∧
      (n * 1024 * 1024 < 18446744073709551616 →
        parse_size_with_unit (natStr n ++ "M") = n * 1024 * 1024) ∧
      (n * 1024 * 1024 * 1024 < 18446744073709551616 →
        parse_size_with_unit (natStr n ++ "G") = n * 1024 * 1024 * 1024)) ∧
    (∀ s : String, s.data.head?.all (fun c => !c.isDigit) = true →
      parse_size_with_unit s = 0) := by
  constructor
  · intro n hn
    refine ⟨?_, ?_, ?_, ?_⟩
    · rw [parse_size_natStr_sfx n hn "" (by decide)]
      rw [append_empty_str]
      rw [natStr_lastCharIs_false (by decide), natStr_lastCharIs_false (by decide),
        natStr_lastCharIs_false (by decide)]
      simp
    · intro hK
      rw [parse_size_natStr_sfx n hn "K" (by decide)]
      rw [(lastChar_append_K (natStr n)).1]
      simp [Nat.mod_eq_of_lt hK]
    · intro hM
      rw [parse_size_natStr_sfx n hn "M" (by decide)]
      obtain ⟨h1, h2, _⟩ := lastChar_append_M (natStr n)
      rw [h1, h2]
      simp [Nat.mod_eq_of_lt hM]
    · intro hG
      rw [parse_size_natStr_sfx n hn "G" (by decide)]
      obtain ⟨h1, h2, h3⟩ := lastChar_append_G (natStr n)
      rw [h1, h2, h3]
      simp [Nat.mod_eq_of_lt hG]
  · intro s hs
    unfold parse_size_with_unit
    rw [takeWhile_head_not hs]
    simp only [show rustParseUsize ⟨[]⟩ = none from rfl, Option.getD_none]
    split <;> try split
    all_goals simp

/-- Claim C2, witness: the amended theorem applied at `n = 32` with suffix
"K" and at the non-digit-prefixed input "K". -/
theorem claim_C2_witness :
    parse_size_with_unit (natStr 32 ++ "K") = 32 * 1024 ∧
      parse_size_with_unit "K" = 0 :=
  ⟨(claim_C2.1 32 (by decide)).2.1 (by decide), claim_C2.2 "K" (by decide)⟩

/-- Claim C9: only an uppercase final 'K', 'M' or 'G' is recognised as a
unit suffix; for every input whose last character is anything else
(including lowercase 'k'/'m'/'g' or a trailing "KB"-style unit) the result
is just the parsed leading digit run with multiplier 1, so
`parse_size_with_unit "32k" = 32` while `parse_size_with_unit "32K" =
32768` (and `parse_size_with_unit "32KB" = 32`). -/
theorem claim_C9 :
    (∀ s : String, lastCharIs s 'K' = false → lastCharIs s 'M' = false →
      lastCharIs s 'G' = false →
      parse_size_with_unit s =
        (rustParseUsize ⟨s.data.takeWhile (fun c => c.isDigit)⟩).getD 0) ∧
    parse_size_with_unit "32k" = 32 ∧
    parse_size_with_unit "32K" = 32768 ∧
    parse_size_with_unit "32KB" = 32 := by
  refine ⟨?_, by decide, by decide, by decide⟩
  intro s h1 h2 h3
  unfold parse_size_with_unit
  rw [h1, h2, h3]
  simp

/-- Claim C9, witness: the general part applied to "7x", whose last
character is none of 'K', 'M', 'G'. -/
theorem claim_C9_witness : parse_size_with_unit "7x" = 7 :=
  (claim_C9.1 "7x" (by decide) (by decide) (by decide)).trans (by decide)

/-- Claim C6: `format_size` returns "Not detected" for 0; for nonzero byte
counts it selects the largest unit among B, KB, MB, GB (powers of 1024) in
which the value is at least 1 and below 1024 (at or above 1024³ it uses
GB), rendering bytes as a bare integer with a " B" suffix and KB/MB/GB with
two decimal places; in particular `format_size 512 = "512 B"`,
`format_size 2048 = "2.00 KB"`, `format_size 1048576 = "1.00 MB"` and
`format_size 1073741824 = "1.00 GB"`. -/
theorem claim_C6 :
    format_size 0 = "Not detected" ∧
    format_size 512 = "512 B" ∧
    format_size 2048 = "2.00 KB" ∧
    format_size 1048576 = "1.00 MB" ∧
    format_size 1073741824 = "1.00 GB" ∧
    (∀ s : Nat, 0 < s → s < 1024 → format_size s = natStr s ++ " B") ∧
    (∀ s : Nat, 1024 ≤ s → s < 1024 * 1024 →
      ∃ d, format_size s = d ++ " KB") ∧
    (∀ s : Nat, 1024 * 1024 ≤ s → s < 1024 * 1024 * 1024 →
      ∃ d, format_size s = d ++ " MB") ∧
    (∀ s : Nat, 1024 * 1024 * 1024 ≤ s → ∃ d, format_size s = d ++ " GB") := by
  refine ⟨by decide, by decide, by decide, by decide, by decide, ?_, ?_, ?_, ?_⟩
  · intro s h1 h2
    unfold format_size
    rw [if_neg (by omega), if_pos (by omega)]
  · intro s h1 h2
    unfold format_size
    rw [if_neg (by omega), if_neg (by omega), if_pos (by omega)]
    exact ⟨_, rfl⟩
  · intro s h1 h2
    unfold format_size
    rw [if_neg (by omega), if_neg (by omega), if_neg (by omega), if_pos (by omega)]
    exact ⟨_, rfl⟩
  · intro s h1
    unfold format_size
    rw [if_neg (by omega), if_neg (by omega), if_neg (by omega), if_neg (by omega)]
    exact ⟨_, rfl⟩

/-- Claim C6, witness: the unit-selection clauses applied at 777 bytes,
5000 bytes, 5000000 bytes and 5000000000 bytes. -/
theorem claim_C6_witness :
    format_size 777 = natStr 777 ++ " B" ∧
    (∃ d, format_size 5000 = d ++ " KB") ∧
    (∃ d, format_size 5000000 = d ++ " MB") ∧
    (∃ d, format_size 5000000000 = d ++ " GB") :=
  ⟨claim_C6.2.2.2.2.2.1 777 (by decide) (by decide),
   claim_C6.2.2.2.2.2.2.1 5000 (by decide) (by decide),
   claim_C6.2.2.2.2.2.2.2.1 5000000 (by decide) (by decide),
   claim_C6.2.2.2.2.2.2.2.2 5000000000 (by decide)⟩

/-- Claim C7: architecture normalisation is total: "x86"/"x86_64" map to
"x86"; "aarch64"/"arm"/"arm64" map to the ARM refinement, which is
"Apple Silicon" exactly when running on macOS and the CPU brand string was
captured and contains "Apple", and "ARM" otherwise; every other raw string
maps to "Unknown: " followed by the raw string. -/
theorem claim_C7 (raw : String) (isMacos : Bool) (brand : Option String) :
    detect_architecture raw isMacos brand =
      if raw = "x86" ∨ raw = "x86_64" then "x86"
      else if raw = "aarch64" ∨ raw = "arm" ∨ raw = "arm64" then
        (if isMacos = true ∧ ∃ out, brand = some out ∧
            strContains out "Apple" = true
         then "Apple Silicon" else "ARM")
      else "Unknown: " ++ raw := by
  by_cases h1 : raw = "x86" ∨ raw = "x86_64"
  · simp [detect_architecture, h1]
  · by_cases h2 : raw = "aarch64" ∨ raw = "arm" ∨ raw = "arm64"
    · simp only [detect_architecture, h1, h2, if_true, if_false, ite_true,
        ite_false]
      unfold detect_arm_type
      cases isMacos with
      | false => simp
      | true =>
        cases brand with
        | none => simp
        | some o =>
          simp only [if_pos rfl]
          by_cases hc : strContains o "Apple" = true
          · have hp : True ∧ ∃ out, some o = some out ∧
                strContains out "Apple" = true := ⟨trivial, o, rfl, hc⟩
            rw [if_pos hc, if_pos hp]
            simp
          · have hn : ¬(True ∧ ∃ out, some o = some out ∧
                strContains out "Apple" = true) := by
              rintro ⟨-, o2, ho2, hc2⟩
              cases ho2
              exact hc hc2
            rw [if_neg hc, if_neg hn]
            simp
    · simp [detect_architecture, h1, h2]

theorem listPrefix_append_prefix {p q : List Char}
    (h : listPrefix p q = true) (r : List Char) :
    listPrefix p (q ++ r) = true := by
  induction p generalizing q with
  | nil => rfl
  | cons a as ih =>
    cases q with
    | nil => simp [listPrefix] at h
    | cons b bs =>
      simp only [listPrefix, Bool.and_eq_true] at h
      simp only [List.cons_append, listPrefix, Bool.and_eq_true]
      exact ⟨h.1, ih h.2⟩

theorem listPrefix_append_diverge {p q : List Char}
    (h1 : listPrefix p q = false) (h2 : listPrefix q p = false)
    (r : List Char) : listPrefix p (q ++ r) = false := by
  induction p generalizing q with
  | nil => simp [listPrefix] at h1
  | cons a as ih =>
    cases q with
    | nil => simp [listPrefix] at h2
    | cons b bs =>
      simp only [List.cons_append, listPrefix]
      cases hab : a == b with
      | false => simp
      | true =>
        have hab' : a = b := eq_of_beq hab
        subst hab'
        simp only [listPrefix, beq_self_eq_true, Bool.true_and] at h1 h2 ⊢
        exact ih h1 h2

theorem listPrefix_head_ne (a b : Char) {p q : List Char}
    (hp : p.head? = some a) (hq : q.head? = some b)
    (hab : (a == b) = false) : listPrefix p q = false := by
  cases p with
  | nil => cases hp
  | cons x t =>
    cases q with
    | nil => cases hq
    | cons y s =>
      simp only [List.head?_cons, Option.some.injEq] at hp hq
      subst hp; subst hq
      simp [listPrefix, hab]

theorem listPrefix_replicate (a : Char) {p : List Char}
    (hp : p.head? = some a) (ha : (a == '-') = false) (n : Nat) :
    listPrefix p (List.replicate n '-') = false := by
  cases p with
  | nil => cases hp
  | cons x t =>
    simp only [List.head?_cons, Option.some.injEq] at hp
    subst hp
    cases n with
    | zero => rfl
    | succ m =>
      rw [List.replicate_succ]
      simp [listPrefix, ha]

theorem strPrefix_append_true {pat lit : String}
    (h : listPrefix pat.data lit.data = true) (X : String) :
    listPrefix pat.data ((lit ++ X).data) = true := by
  rw [strData_append]
  exact listPrefix_append_prefix h _

theorem strPrefix_append_false {pat lit : String}
    (h1 : listPrefix pat.data lit.data = false)
    (h2 : listPrefix lit.data pat.data = false) (X : String) :
    listPrefix pat.data ((lit ++ X).data) = false := by
  rw [strData_append]
  exact listPrefix_append_diverge h1 h2 _

set_option maxHeartbeats 2000000 in
/-- Claim C4: for every rendered performance level, if the unified L1 size
is positive exactly one "L1 Cache (Unified):" line appears and no
instruction/data L1 lines appear; otherwise the "L1 Instruction Cache" and
"L1 Data Cache" lines appear exactly when the corresponding size is
nonzero; an "L2 Cache:" line always appears, carrying `format_size` of the
L2 value (which is "Not detected" at 0); and an "L3 Cache" line appears
exactly when the L3 size is positive. -/
theorem claim_C4 (pl : ProcessorLevel) :
    format_size 0 = "Not detected" ∧
    lineCount "L1 Cache (Unified):" pl.format =
      (if 0 < pl.l1_cache.unified_size then 1 else 0) ∧
    lineCount "L1 Instruction Cache:" pl.format =
      (if 0 < pl.l1_cache.unified_size then 0
       else if 0 < pl.l1_cache.instruction_size then 1 else 0) ∧
    lineCount "L1 Data Cache:" pl.format =
      (if 0 < pl.l1_cache.unified_size then 0
       else if 0 < pl.l1_cache.data_size then 1 else 0) ∧
    lineCount "L2 Cache:" pl.format = 1 ∧
    ("L2 Cache: " ++ format_size pl.l2_cache) ∈ pl.format ∧
    lineCount "L3 Cache:" pl.format = (if 0 < pl.l3_cache then 1 else 0) := by
  rcases pl with ⟨name, ⟨isz, dsz, usz⟩, l2, l3⟩
  have hUn : listPrefix "L1 Cache (Unified):".data (("\n" ++ name).data) = false :=
    listPrefix_head_ne 'L' '\n' (by decide) (by rw [strData_append]; rfl) (by decide)
  have hIn : listPrefix "L1 Instruction Cache:".data (("\n" ++ name).data) = false :=
    listPrefix_head_ne 'L' '\n' (by decide) (by rw [strData_append]; rfl) (by decide)
  have hDn : listPrefix "L1 Data Cache:".data (("\n" ++ name).data) = false :=
    listPrefix_head_ne 'L' '\n' (by decide) (by rw [strData_append]; rfl) (by decide)
  have hWn : listPrefix "L2 Cache:".data (("\n" ++ name).data) = false :=
    listPrefix_head_ne 'L' '\n' (by decide) (by rw [strData_append]; rfl) (by decide)
  have hTn : listPrefix "L3 Cache:".data (("\n" ++ name).data) = false :=
    listPrefix_head_ne 'L' '\n' (by decide) (by rw [strData_append]; rfl) (by decide)
  have hUr : listPrefix "L1 Cache (Unified):".data
      ((String.mk (List.replicate name.data.length '-')).data) = false :=
    listPrefix_replicate 'L' (by decide) (by decide) _
  have hIr : listPrefix "L1 Instruction Cache:".data
      ((String.mk (List.replicate name.data.length '-')).data) = false :=
    listPrefix_replicate 'L' (by decide) (by decide) _
  have hDr : listPrefix "L1 Data Cache:".data
      ((String.mk (List.replicate name.data.length '-')).data) = false :=
    listPrefix_replicate 'L' (by decide) (by decide) _
  have hWr : listPrefix "L2 Cache:".data
      ((String.mk (List.replicate name.data.length '-')).data) = false :=
    listPrefix_replicate 'L' (by decide) (by decide) _
  have hTr : listPrefix "L3 Cache:".data
      ((String.mk (List.replicate name.data.length '-')).data) = false :=
    listPrefix_replicate 'L' (by decide) (by decide) _
  have hUu : ∀ X, listPrefix "L1 Cache (Unified):".data
      (("L1 Cache (Unified): " ++ X).data) = true :=
    fun X => strPrefix_append_true (by decide) X
  have hUi : ∀ X, listPrefix "L1 Cache (Unified):".data
      (("L1 Instruction Cache: " ++ X).data) = false :=
    fun X => strPrefix_append_false (by decide) (by decide) X
  have hUd : ∀ X, listPrefix "L1 Cache (Unified):".data
      (("L1 Data Cache: " ++ X).data) = false :=
    fun X => strPrefix_append_false (by decide) (by decide) X
  have hUw : ∀ X, listPrefix "L1 Cache (Unified):".data
      (("L2 Cache: " ++ X).data) = false :=
    fun X => strPrefix_append_false (by decide) (by decide) X
  have hUt : ∀ X, listPrefix "L1 Cache (Unified):".data
      (("L3 Cache: " ++ X).data) = false :=
    fun X => strPrefix_append_false (by decide) (by decide) X
  have hIu : ∀ X, listPrefix "L1 Instruction Cache:".data
      (("L1 Cache (Unified): " ++ X).data) = false :=
    fun X => strPrefix_append_false (by decide) (by decide) X
  have hIi : ∀ X, listPrefix "L1 Instruction Cache:".data
      (("L1 Instruction Cache: " ++ X).data) = true :=
    fun X => strPrefix_append_true (by decide) X
  have hId : ∀ X, listPrefix "L1 Instruction Cache:".data
      (("L1 Data Cache: " ++ X).data) = false :=
    fun X => strPrefix_append_false (by decide) (by decide) X
  have hIw : ∀ X, listPrefix "L1 Instruction Cache:".data
      (("L2 Cache: " ++ X).data) = false :=
    fun X => strPrefix_append_false (by decide) (by decide) X
  have hIt : ∀ X, listPrefix "L1 Instruction Cache:".data
      (("L3 Cache: " ++ X).data) = false :=
    fun X => strPrefix_append_false (by decide) (by decide) X
  have hDu : ∀ X, listPrefix "L1 Data Cache:".data
      (("L1 Cache (Unified): " ++ X).data) = false :=
    fun X => strPrefix_append_false (by decide) (by decide) X
  have hDi : ∀ X, listPrefix "L1 Data Cache:".data
      (("L1 Instruction Cache: " ++ X).data) = false :=
    fun X => strPrefix_append_false (by decide) (by decide) X
  have hDd : ∀ X, listPrefix "L1 Data Cache:".data
      (("L1 Data Cache: " ++ X).data) = true :=
    fun X => strPrefix_append_true (by decide) X
  have hDw : ∀ X, listPrefix "L1 Data Cache:".data
      (("L2 Cache: " ++ X).data) = false :=
    fun X => strPrefix_append_false (by decide) (by decide) X
  have hDt : ∀ X, listPrefix "L1 Data Cache:".data
      (("L3 Cache: " ++ X).data) = false :=
    fun X => strPrefix_append_false (by decide) (by decide) X
  have hWu : ∀ X, listPrefix "L2 Cache:".data
      (("L1 Cache (Unified): " ++ X).data) = false :=
    fun X => strPrefix_append_false (by decide) (by decide) X
  have hWi : ∀ X, listPrefix "L2 Cache:".data
      (("L1 Instruction Cache: " ++ X).data) = false :=
    fun X => strPrefix_append_false (by decide) (by decide) X
  have hWd : ∀ X, listPrefix "L2 Cache:".data
      (("L1 Data Cache: " ++ X).data) = false :=
    fun X => strPrefix_append_false (by decide) (by decide) X
  have hWw : ∀ X, listPrefix "L2 Cache:".data
      (("L2 Cache: " ++ X).data) = true :=
    fun X => strPrefix_append_true (by decide) X
  have hWt : ∀ X, listPrefix "L2 Cache:".data
      (("L3 Cache: " ++ X).data) = false :=
    fun X => strPrefix_append_false (by decide) (by decide) X
  have hTu : ∀ X, listPrefix "L3 Cache:".data
      (("L1 Cache (Unified): " ++ X).data) = false :=
    fun X => strPrefix_append_false (by decide) (by decide) X
  have hTi : ∀ X, listPrefix "L3 Cache:".data
      (("L1 Instruction Cache: " ++ X).data) = false :=
    fun X => strPrefix_append_false (by decide) (by decide) X
  have hTd : ∀ X, listPrefix "L3 Cache:".data
      (("L1 Data Cache: " ++ X).data) = false :=
    fun X => strPrefix_append_false (by decide) (by decide) X
  have hTw : ∀ X, listPrefix "L3 Cache:".data
      (("L2 Cache: " ++ X).data) = false :=
    fun X => strPrefix_append_false (by decide) (by decide) X
  have hTt : ∀ X, listPrefix "L3 Cache:".data
      (("L3 Cache: " ++ X).data) = true :=
    fun X => strPrefix_append_true (by decide) X
  refine ⟨by decide, ?_⟩
  simp only [ProcessorLevel.format, CacheInfo.format, lineCount]
  by_cases hu : 0 < usz <;> by_cases hi : 0 < isz <;> by_cases hd : 0 < dsz <;>
    by_cases h3 : 0 < l3 <;>
    simp only [hu, hi, hd, h3, if_true, if_false, ite_true, ite_false,
      List.countP_append, List.countP_cons, List.countP_nil,
      hUn, hIn, hDn, hWn, hTn, hUr, hIr, hDr, hWr, hTr,
      hUu, hUi, hUd, hUw, hUt, hIu, hIi, hId, hIw, hIt, hDu, hDi, hDd,
      hDw, hDt, hWu, hWi, hWd, hWw, hWt, hTu, hTi, hTd, hTw, hTt,
      List.mem_append, List.mem_cons, List.not_mem_nil] <;>
    simp

theorem find?_replace (m : List (String × ProcessorLevel)) (k : String)
    (v : ProcessorLevel) :
    m.any (fun p => p.1 == k) = true →
    (m.map (fun p => if p.1 == k then (k, v) else p)).find?
      (fun p => p.1 == k) = some (k, v) := by
  induction m with
  | nil => simp
  | cons p t ih =>
    intro h
    by_cases hp : (p.1 == k) = true
    · have hk : p.1 = k := eq_of_beq hp
      subst hk
      simp [List.find?_cons]
    · have hp' : (p.1 == k) = false := by
        cases hb : p.1 == k
        · rfl
        · exact absurd hb hp
      simp only [List.any_cons, hp', Bool.false_or] at h
      rw [List.map_cons, if_neg hp, List.find?_cons, hp']
      exact ih h

theorem lookupLevel_insertLevel (m : List (String × ProcessorLevel))
    (k : String) (v : ProcessorLevel) :
    lookupLevel (insertLevel m k v) k = some v := by
  unfold insertLevel lookupLevel
  by_cases h : m.any (fun p => p.1 == k) = true
  · rw [if_pos h, find?_replace m k v h]
    rfl
  · rw [if_neg h]
    have hm : m.find? (fun p => p.1 == k) = none := by
      rw [List.find?_eq_none]
      intro p hp hbe
      exact h (List.any_eq_true.mpr ⟨p, hp, hbe⟩)
    rw [List.find?_append, hm]
    simp

/-- Claim C8: when the operating-system identifier matches none of macos,
linux, windows, `collect_cache_info` emits the one-line diagnostic to
stderr, leaves the model (and in particular its performance-level mapping)
unchanged, and returns `Ok`; hence `main` still succeeds and renders the
report of a model with an empty mapping. -/
theorem claim_C8 (os : String) (h1 : os ≠ "macos") (h2 : os ≠ "linux")
    (h3 : os ≠ "windows") :
    (∀ (pi : ProcessorInfo) (o : Oracles),
      collect_cache_info os pi o =
        (some pi, ["Unsupported operating system: " ++ os])) ∧
    (∀ (rawArch : String) (isMacos : Bool) (brand : Option String)
        (modelName : String) (o : Oracles),
      run_main os rawArch isMacos brand modelName o =
        some (ProcessorInfo.display
          { architecture := detect_architecture rawArch isMacos brand,
            model_name := modelName, performance_levels := [] } rawArch)) := by
  have key : ∀ (pi : ProcessorInfo) (o : Oracles),
      collect_cache_info os pi o =
        (some pi, ["Unsupported operating system: " ++ os]) := by
    intro pi o
    unfold collect_cache_info
    rw [if_neg h1, if_neg h2, if_neg h3]
  refine ⟨key, ?_⟩
  intro rawArch isMacos brand modelName o
  have hz : run_main os rawArch isMacos brand modelName o =
      match collect_cache_info os
        { architecture := detect_architecture rawArch isMacos brand,
          model_name := modelName, performance_levels := [] } o with
      | (some pi2, _) => some (pi2.display rawArch)
      | (none, _) => none := rfl
  rw [hz, key]

/-- Claim C8, witness: the theorem applied at the concrete unsupported OS
string "plan9" with all-failing oracles. -/
theorem claim_C8_witness :
    collect_cache_info "plan9" {}
      { sysctl := fun _ => none, read_file := fun _ => none, wmic := none } =
      (some {}, ["Unsupported operating system: plan9"]) :=
  (claim_C8 "plan9" (by decide) (by decide) (by decide)).1 {} _

/-- Claim C1, code evaluation at the failing input: on the Apple-silicon
branch a spawn-level I/O failure of `sysctl` (oracle answering `none`)
propagates out of `collect_cache_info` as `Err` through the `?` operators
of `collect_apple_silicon_cache_info`, contradicting the claim that a
failed sysctl invocation never aborts detection; by contrast a sysctl that
produces output, however malformed, only degrades the queried fields to 0
and detection completes. -/
theorem claim_C1_code_bug :
    (collect_cache_info "macos"
      { architecture := "Apple Silicon", model_name := "",
        performance_levels := [] }
      { sysctl := fun _ => none, read_file := fun _ => none,
        wmic := none }).1 = none ∧
    (collect_cache_info "macos"
      { architecture := "Apple Silicon", model_name := "",
        performance_levels := [] }
      { sysctl := fun _ => some "garbage", read_file := fun _ => none,
        wmic := none }).1 =
      some { architecture := "Apple Silicon", model_name := "",
             performance_levels :=
               [("Performance Cores",
                 { level_name := "Performance Cores",
                   l1_cache := { instruction_size := 0, data_size := 0,
                                 unified_size := 0 },
                   l2_cache := 0, l3_cache := 0 })] } := by
  constructor
  · rfl
  · rfl

/-- Claim C10: on the Linux, Intel-mac and Windows branches a level named
"Default" is unconditionally inserted into the performance-level mapping,
for every behaviour of the underlying oracles; and with every query failing
the rendered report still contains the "Default" section and the line
"L2 Cache: Not detected". -/
theorem claim_C10 :
    (∀ (rf : String → Option String) (pi : ProcessorInfo),
      (lookupLevel (collect_linux_cache_info rf pi).performance_levels
        "Default").isSome = true) ∧
    (∀ (sysctl : String → Option String) (pi : ProcessorInfo),
      (lookupLevel (collect_intel_mac_cache_info sysctl pi).performance_levels
        "Default").isSome = true) ∧
    (∀ (w : Option String) (pi : ProcessorInfo),
      (lookupLevel (collect_windows_cache_info w pi).performance_levels
        "Default").isSome = true) ∧
    "\nDefault" ∈ ProcessorInfo.display
      (collect_linux_cache_info (fun _ => none) {}) "x86_64" ∧
    "L2 Cache: Not detected" ∈ ProcessorInfo.display
      (collect_linux_cache_info (fun _ => none) {}) "x86_64" ∧
    "L2 Cache: Not detected" ∈ ProcessorInfo.display
      (collect_intel_mac_cache_info (fun _ => none) {}) "sysctl-less" ∧
    "L2 Cache: Not detected" ∈ ProcessorInfo.display
      (collect_windows_cache_info none {}) "wmic-less" := by
  refine ⟨?_, ?_, ?_, by decide, by decide, by decide, by decide⟩
  · intro rf pi
    simp [collect_linux_cache_info, lookupLevel_insertLevel]
  · intro sysctl pi
    simp [collect_intel_mac_cache_info, lookupLevel_insertLevel]
  · intro w pi
    simp [collect_windows_cache_info, lookupLevel_insertLevel]

theorem foldl_congr_fun {l : List Nat}
    {f g : ProcessorLevel → Nat → ProcessorLevel} {a : ProcessorLevel}
    (h : ∀ i ∈ l, ∀ acc, f acc i = g acc i) : l.foldl f a = l.foldl g a := by
  induction l generalizing a with
  | nil => rfl
  | cons x xs ih =>
    rw [List.foldl_cons, List.foldl_cons, h x (by simp)]
    exact ih (fun i hi acc => h i (by simp [hi]) acc)

/-- Claim C3: the Linux scan skips an index whenever any of its three
attribute files is unreadable and continues with the remaining indices;
only the attribute files of indices 0 through 9 are ever consulted (oracles
agreeing there produce the same result); the synthetic tree of indices 0-2
with (level=1,type=Data,size="32K"), (level=1,type=Instruction,size="32K"),
(level=2,type=Unified,size="1M") yields L1 data=32768, L1
instruction=32768, L1 unified=0, L2=1048576, L3=0; and an entry at index 9
behind a gap is still dispatched (level 3 writes L3). -/
theorem claim_C3 :
    (∀ (rf : String → Option String) (pl : ProcessorLevel) (i : Nat),
      rf (linux_cache_dir i ++ "/level") = none →
        linux_index_step rf pl i = pl) ∧
    (∀ (rf : String → Option String) (pl : ProcessorLevel) (i : Nat),
      rf (linux_cache_dir i ++ "/type") = none →
        linux_index_step rf pl i = pl) ∧
    (∀ (rf : String → Option String) (pl : ProcessorLevel) (i : Nat),
      rf (linux_cache_dir i ++ "/size") = none →
        linux_index_step rf pl i = pl) ∧
    (∀ (rf rf' : String → Option String) (pi : ProcessorInfo),
      (∀ i, i < 10 →
        rf (linux_cache_dir i ++ "/level") =
          rf' (linux_cache_dir i ++ "/level") ∧
        rf (linux_cache_dir i ++ "/type") =
          rf' (linux_cache_dir i ++ "/type") ∧
        rf (linux_cache_dir i ++ "/size") =
          rf' (linux_cache_dir i ++ "/size")) →
      collect_linux_cache_info rf pi = collect_linux_cache_info rf' pi) ∧
    lookupLevel (collect_linux_cache_info linuxSynFs {}).performance_levels
      "Default" =
      some { level_name := "Default",
             l1_cache := { instruction_size := 32768, data_size := 32768,
                           unified_size := 0 },
             l2_cache := 1048576, l3_cache := 0 } ∧
    lookupLevel (collect_linux_cache_info linuxGapFs {}).performance_levels
      "Default" =
      some { level_name := "Default",
             l1_cache := { instruction_size := 0, data_size := 0,
                           unified_size := 0 },
             l2_cache := 0, l3_cache := 2097152 } := by
  refine ⟨?_, ?_, ?_, ?_, by decide, by decide⟩
  · intro rf pl i h
    simp [linux_index_step, h]
  · intro rf pl i h
    cases hl : rf (linux_cache_dir i ++ "/level") with
    | none => simp [linux_index_step, hl]
    | some c => simp [linux_index_step, hl, h]
  · intro rf pl i h
    cases hl : rf (linux_cache_dir i ++ "/level") with
    | none => simp [linux_index_step, hl]
    | some c =>
      cases ht : rf (linux_cache_dir i ++ "/type") with
      | none => simp [linux_index_step, hl, ht]
      | some d => simp [linux_index_step, hl, ht, h]
  · intro rf rf' pi hag
    unfold collect_linux_cache_info
    have hstep : ∀ i ∈ List.range 10, ∀ acc,
        linux_index_step rf acc i = linux_index_step rf' acc i := by
      intro i hi acc
      obtain ⟨e1, e2, e3⟩ := hag i (List.mem_range.mp hi)
      unfold linux_index_step
      simp only [e1, e2, e3]
    rw [foldl_congr_fun hstep]

/-- Claim C3, witness: the skip clause applied at index 4 of an oracle with
no readable files, and the synthetic-tree clause restated. -/
theorem claim_C3_witness :
    linux_index_step (fun _ => none) (ProcessorLevel.new "Default") 4 =
      ProcessorLevel.new "Default" :=
  claim_C3.1 (fun _ => none) (ProcessorLevel.new "Default") 4 rfl

theorem apple_level_total {sysctl : String → Option String}
    (h : ∀ k, (sysctl k).isSome = true) (i : Nat) :
    apple_level sysctl i = some (apple_level_pure sysctl i) := by
  obtain ⟨v1, hv1⟩ := Option.isSome_iff_exists.mp
    (h ("hw.perflevel" ++ natStr i ++ ".l1icachesize"))
  obtain ⟨v2, hv2⟩ := Option.isSome_iff_exists.mp
    (h ("hw.perflevel" ++ natStr i ++ ".l1dcachesize"))
  obtain ⟨v3, hv3⟩ := Option.isSome_iff_exists.mp
    (h ("hw.perflevel" ++ natStr i ++ ".l2cachesize"))
  obtain ⟨v4, hv4⟩ := Option.isSome_iff_exists.mp (h "hw.l3cachesize")
  unfold apple_level apple_level_pure apple_query_val
  rw [hv1, hv2, hv3]
  by_cases hi : i = 0
  · subst hi
    simp [hv1, hv2, hv3, hv4]
  · simp [hv1, hv2, hv3, hi]

theorem apple_loop_total {sysctl : String → Option String}
    (h : ∀ k, (sysctl k).isSome = true) :
    ∀ (l : List Nat) (acc : List (String × ProcessorLevel)),
      apple_loop sysctl l acc = some (l.foldl
        (fun a i => insertLevel a (apple_level_name i)
          (apple_level_pure sysctl i)) acc) := by
  intro l
  induction l with
  | nil => intro acc; rfl
  | cons x xs ih =>
    intro acc
    unfold apple_loop
    rw [apple_level_total h x]
    simp only [Option.bind_some, List.foldl_cons]
    exact ih _

theorem insertLevel_map_fst_fresh {m : List (String × ProcessorLevel)}
    {k : String} (v : ProcessorLevel) (hk : k ∉ m.map Prod.fst) :
    (insertLevel m k v).map Prod.fst = m.map Prod.fst ++ [k] := by
  have hany : m.any (fun p => p.1 == k) = false := by
    cases hb : m.any (fun p => p.1 == k)
    · rfl
    · obtain ⟨p, hp, hbe⟩ := List.any_eq_true.mp hb
      exact absurd (List.mem_map.mpr ⟨p, hp, eq_of_beq hbe⟩) hk
  unfold insertLevel
  rw [if_neg (by simp [hany])]
  simp

theorem mem_insertLevel {m : List (String × ProcessorLevel)} {k : String}
    {v : ProcessorLevel} {p : String × ProcessorLevel}
    (hp : p ∈ insertLevel m k v) : p ∈ m ∨ p = (k, v) := by
  unfold insertLevel at hp
  split at hp
  · obtain ⟨q, hq, heq⟩ := List.mem_map.mp hp
    by_cases hqk : (q.1 == k) = true
    · right
      rw [if_pos hqk] at heq
      exact heq.symm
    · left
      rw [if_neg hqk] at heq
      exact heq ▸ hq
  · rcases List.mem_append.mp hp with hm | hs
    · exact Or.inl hm
    · exact Or.inr (by simpa using hs)

theorem loop_names (sysctl : String → Option String) :
    ∀ (l : List Nat) (acc : List (String × ProcessorLevel)),
      (l.map apple_level_name).Nodup →
      (∀ i ∈ l, apple_level_name i ∉ acc.map Prod.fst) →
      ((l.foldl (fun a i => insertLevel a (apple_level_name i)
          (apple_level_pure sysctl i)) acc).map Prod.fst) =
        acc.map Prod.fst ++ l.map apple_level_name := by
  intro l
  induction l with
  | nil => intro acc _ _; simp
  | cons x xs ih =>
    intro acc hnd hfresh
    rw [List.foldl_cons]
    have hx : apple_level_name x ∉ acc.map Prod.fst :=
      hfresh x (by simp)
    have hacc' : (insertLevel acc (apple_level_name x)
        (apple_level_pure sysctl x)).map Prod.fst =
        acc.map Prod.fst ++ [apple_level_name x] :=
      insertLevel_map_fst_fresh _ hx
    rw [List.map_cons] at hnd
    have hnd' : (xs.map apple_level_name).Nodup := hnd.of_cons
    have hhead : apple_level_name x ∉ xs.map apple_level_name := by
      have := List.nodup_cons.mp hnd
      exact this.1
    rw [ih _ hnd' ?_, hacc']
    · simp
    · intro i hi
      rw [hacc']
      intro hmem
      rcases List.mem_append.mp hmem with hm | hs
      · exact hfresh i (by simp [hi]) hm
      · simp only [List.mem_singleton] at hs
        exact hhead (hs ▸ List.mem_map.mpr ⟨i, hi, rfl⟩)

theorem loop_l3 (sysctl : String → Option String) :
    ∀ (l : List Nat) (acc : List (String × ProcessorLevel)),
      (∀ p ∈ acc, p.1 ≠ "Performance Cores" → p.2.l3_cache = 0) →
      ∀ p ∈ (l.foldl (fun a i => insertLevel a (apple_level_name i)
          (apple_level_pure sysctl i)) acc),
        p.1 ≠ "Performance Cores" → p.2.l3_cache = 0 := by
  intro l
  induction l with
  | nil => intro acc hacc; exact hacc
  | cons x xs ih =>
    intro acc hacc
    rw [List.foldl_cons]
    apply ih
    intro p hp hne
    rcases mem_insertLevel hp with hm | he
    · exact hacc p hm hne
    · subst he
      simp only at hne ⊢
      have hx0 : x ≠ 0 := by
        intro h0
        subst h0
        exact hne rfl
      unfold apple_level_pure
      simp [hx0]

theorem apple_level_name_inj : Function.Injective apple_level_name := by
  intro i j h
  match i, j with
  | 0, 0 => rfl
  | 0, j + 1 =>
    have h2 : (some 'P' : Option Char) = some 'E' :=
      congrArg (fun s => s.data.head?) h
    cases h2
  | i + 1, 0 =>
    have h2 : (some 'E' : Option Char) = some 'P' :=
      congrArg (fun s => s.data.head?) h
    cases h2
  | i + 1, j + 1 =>
    have h3 : ("Efficiency Cores (Level " ++ natStr (i + 1) ++ ")" : String) =
        "Efficiency Cores (Level " ++ natStr (j + 1) ++ ")" := h
    have hd := congrArg String.data h3
    rw [strData_append, strData_append, strData_append, strData_append] at hd
    rw [show (natStr (i + 1)).data = natDecStr (i + 1) from rfl,
      show (natStr (j + 1)).data = natDecStr (j + 1) from rfl,
      show (")" : String).data = [')'] from rfl] at hd
    rw [List.append_assoc, List.append_assoc] at hd
    have hc := List.append_cancel_left hd
    have he : natDecStr (i + 1) = natDecStr (j + 1) :=
      (List.append_inj' hc rfl).1
    have := natDecStr_inj he
    omega

/-- Claim C5: on the Apple-silicon branch with every sysctl invocation
succeeding, detection produces one named level per tier index in
`[0, N)` where `N` is the parsed tier count (defaulting to 1 when the
tier-count output is unparseable): the level names are exactly
`apple_level_name 0, …, apple_level_name (N-1)` in tier order, tier 0 is
named "Performance Cores" and tier `i > 0` "Efficiency Cores (Level i)",
and every level other than "Performance Cores" keeps L3 at 0 because the
global L3 parameter is queried only for tier 0; on the two-tier input of
spec §8 the level "Performance Cores" has L3 = 8388608 and
"Efficiency Cores (Level 1)" has L3 = 0. -/
theorem claim_C5 :
    (∀ (sysctl : String → Option String) (pi : ProcessorInfo),
      (∀ k, (sysctl k).isSome = true) → pi.performance_levels = [] →
      ∃ m, collect_apple_silicon_cache_info sysctl pi =
          some { pi with performance_levels := m } ∧
        m.map Prod.fst =
          (List.range (appleTierCount sysctl)).map apple_level_name ∧
        (∀ p ∈ m, p.1 ≠ "Performance Cores" → p.2.l3_cache = 0)) ∧
    apple_level_name 0 = "Performance Cores" ∧
    (∀ i : Nat, 0 < i → apple_level_name i =
      "Efficiency Cores (Level " ++ natStr i ++ ")") ∧
    collect_apple_silicon_cache_info appleEnvTwoTier {} =
      some { architecture := "", model_name := "",
             performance_levels :=
               [("Performance Cores",
                 { level_name := "Performance Cores",
                   l1_cache := { instruction_size := 131072,
                                 data_size := 65536, unified_size := 0 },
                   l2_cache := 4194304, l3_cache := 8388608 }),
                ("Efficiency Cores (Level 1)",
                 { level_name := "Efficiency Cores (Level 1)",
                   l1_cache := { instruction_size := 65536,
                                 data_size := 32768, unified_size := 0 },
                   l2_cache := 2097152, l3_cache := 0 })] } ∧
    collect_apple_silicon_cache_info appleEnvBadCount {} =
      some { architecture := "", model_name := "",
             performance_levels :=
               [("Performance Cores",
                 { level_name := "Performance Cores",
                   l1_cache := { instruction_size := 0, data_size := 0,
                                 unified_size := 0 },
                   l2_cache := 0, l3_cache := 0 })] } := by
  refine ⟨?_, rfl, ?_, by decide, by decide⟩
  · intro sysctl pi htot hpi
    obtain ⟨v, hv⟩ := Option.isSome_iff_exists.mp (htot "hw.nperflevels")
    have hn : appleTierCount sysctl = (rustParseUsize v).getD 1 := by
      unfold appleTierCount
      rw [hv]
      rfl
    refine ⟨(List.range (appleTierCount sysctl)).foldl
      (fun a i => insertLevel a (apple_level_name i)
        (apple_level_pure sysctl i)) [], ?_, ?_, ?_⟩
    · have step1 : collect_apple_silicon_cache_info sysctl pi =
          (apple_loop sysctl (List.range ((rustParseUsize v).getD 1))
            pi.performance_levels).bind
            (fun levels => some { pi with performance_levels := levels }) := by
        unfold collect_apple_silicon_cache_info
        rw [hv]
        rfl
      rw [step1, hpi, apple_loop_total htot, hn]
      rfl
    · exact (loop_names sysctl _ [] (((List.nodup_range _).map
        apple_level_name_inj)) (fun i _ => by simp)).trans (by simp)
    · exact loop_l3 sysctl _ [] (by simp)
  · intro i hi
    unfold apple_level_name
    rw [if_neg (by omega)]

/-- Claim C5, witness: the universal clause applied to the two-tier oracle
of spec §8 (every query succeeds) and the empty initial model. -/
theorem claim_C5_witness :
    ∃ m, collect_apple_silicon_cache_info appleEnvTwoTier {} =
        some { ({} : ProcessorInfo) with performance_levels := m } ∧
      m.map Prod.fst =
        (List.range (appleTierCount appleEnvTwoTier)).map apple_level_name ∧
      (∀ p ∈ m, p.1 ≠ "Performance Cores" → p.2.l3_cache = 0) :=
  claim_C5.1 appleEnvTwoTier {}
    (by
      intro k
      unfold appleEnvTwoTier
      repeat' split
      all_goals rfl)
    rfl
